import Mathlib

/-!
# Catalog content-migration engine: verification of the rewrite policies

A shallow embedding of `src/coord/src/catalog/migrate.rs` (the catalog
content-migration engine of the materialize repository) together with proofs
of the spec's laws: the Type Qualifier rewrite rule, the Function Qualifier
precedence rule, idempotence of the rewrite policies, atomicity of the
migration step, scope (no-op) laws, and the envelope frame property.

The statement grammar, the syntax-tree visitor framework, the SQL
parser/printer and the storage/transaction layer are external collaborators
of the migration engine (they are not part of `migrate.rs`); they are
modelled from the spec as noted on each definition. The two rewrite-policy
node actions, the per-statement-kind dispatch and the per-item driver are
translated directly from the source.
-/

namespace Migrate

/-- An identifier segment. The source's `Ident` wraps a string (display
quoting is abstracted away: an ident is its bare string here). -/
abbrev Ident := String

/-- `UnresolvedObjectName(pub Vec<Ident>)`: an identifier path. The source
accesses the vector as `name.0`; here it is the field `idents`. -/
structure UnresolvedObjectName where
  idents : List Ident
deriving DecidableEq, Repr

/-- `PG_CATALOG_SCHEMA` from `crate::catalog`: the fixed pg-compatible
default schema name. -/
def PG_CATALOG_SCHEMA : String := "pg_catalog"

/-- `MZ_CATALOG_SCHEMA` from `crate::catalog`. -/
def MZ_CATALOG_SCHEMA : String := "mz_catalog"

/-- `MZ_INTERNAL_SCHEMA` from `crate::catalog`. -/
def MZ_INTERNAL_SCHEMA : String := "mz_internal"

/-- Modelled from the spec: the data-type trees of the external statement
grammar (`sql::ast::DataType`). `other` is the unresolved case the Type
Qualifier acts on; the container cases carry nested element types. -/
inductive DataType where
  | other (name : UnresolvedObjectName) (typMod : List Nat)
  | array (element : DataType)
  | list (element : DataType)
  | map (keyType : DataType) (valueType : DataType)
deriving DecidableEq, Repr

/-- `TypeNormalizer::visit_data_type_mut` (migrate.rs lines 38-47): on a
`DataType::Other` node whose name has exactly one segment, replace the name
by `[Ident::new(PG_CATALOG_SCHEMA), name.0.remove(0)]`; every other node is
left unchanged by the callback. -/
def typeNormalizerVisitDataType (dataType : DataType) : DataType :=
  match dataType with
  | .other name typMod =>
      if name.idents.length = 1 then
        .other ⟨[PG_CATALOG_SCHEMA] ++ name.idents⟩ typMod
      else
        .other name typMod
  | dt => dt

/-- The three built-in function name tables (`sql::func::PG_CATALOG_BUILTINS`,
`MZ_CATALOG_BUILTINS`, `MZ_INTERNAL_BUILTINS`). They are external read-only
tables; the engine only asks whether a bare name is a key, so each is
modelled as the list of its keys. -/
structure BuiltinTables where
  pgCatalog : List String
  mzCatalog : List String
  mzInternal : List String

/-- The fixed namespace priority order iterated by `normalize_function_name`
(migrate.rs lines 135-139): `pg_catalog`, then `mz_catalog`, then
`mz_internal`, each paired with its name table. -/
def namespaceOrder (bt : BuiltinTables) : List (String × List String) :=
  [(PG_CATALOG_SCHEMA, bt.pgCatalog),
   (MZ_CATALOG_SCHEMA, bt.mzCatalog),
   (MZ_INTERNAL_SCHEMA, bt.mzInternal)]

/-- `normalize_function_name` (migrate.rs lines 132-146): for a
single-segment name, scan the namespaces in the fixed order and, at the
first whose table contains the rendered bare name, replace the name by
`[schema, name.0.remove(0)]` and stop; otherwise, and for any name of a
different segment count, leave the name unchanged. `List.find?` models the
`for`-loop with `break` at the first hit. -/
def normalize_function_name (bt : BuiltinTables) (name : UnresolvedObjectName) :
    UnresolvedObjectName :=
  if name.idents.length = 1 then
    let funcName := String.intercalate "." name.idents
    match (namespaceOrder bt).find? (fun p => p.2.contains funcName) with
    | some p => ⟨[p.1] ++ name.idents⟩
    | none => name
  else
    name

mutual

/-- Modelled from the spec: the mutually-recursive expression / query part of
the external statement grammar (`sql::ast`). Expressions contain casts (where
data types occur), operator applications, function calls and subqueries;
queries contain a projection, a from-clause of table factors and an optional
selection; table factors are plain tables, table-valued function references
or derived subqueries. List and option spines are dedicated inductives so
that all recursion below is structural. -/
inductive Expr where
  | ident (name : UnresolvedObjectName)
  | lit (value : String)
  | cast (operand : Expr) (dataType : DataType)
  | op (opName : String) (args : ExprList)
  | call (func : Func)
  | subquery (query : Query)

/-- Modelled from the spec: a list of expressions. -/
inductive ExprList where
  | nil
  | cons (head : Expr) (tail : ExprList)

/-- Modelled from the spec: `sql::ast::Function` — a function call carrying
an unresolved name and arguments. -/
inductive Func where
  | mk (name : UnresolvedObjectName) (args : ExprList)

/-- Modelled from the spec: an optional expression. -/
inductive OptExpr where
  | none
  | some (e : Expr)

/-- Modelled from the spec: `sql::ast::TableFactor`. -/
inductive TableFactor where
  | table (name : UnresolvedObjectName)
  | func (name : UnresolvedObjectName) (args : ExprList)
  | derived (subquery : Query)

/-- Modelled from the spec: a list of table factors. -/
inductive TableFactorList where
  | nil
  | cons (head : TableFactor) (tail : TableFactorList)

/-- Modelled from the spec: a query body. -/
inductive Query where
  | select (projection : ExprList) (fromClause : TableFactorList) (selection : OptExpr)

end

/-- Modelled from the spec: a column definition (name and data type). -/
structure ColumnDef where
  name : Ident
  dataType : DataType

/-- Modelled from the spec: the value of a statement-level option, which may
be a plain literal or reference a data type by name. -/
inductive SqlOptionValue where
  | value (v : String)
  | dataType (ty : DataType)

/-- Modelled from the spec: a statement-level option. -/
structure SqlOption where
  name : Ident
  value : SqlOptionValue

/-- Modelled from the spec: the statement variants of the external grammar.
The six `Create...` kinds are the ones the migration engine enumerates;
`createSchema` and `otherStatement` stand for every other statement kind
(the fatal cases). -/
inductive Statement where
  | createTable (name : UnresolvedObjectName) (columns : List ColumnDef)
  | createView (name : UnresolvedObjectName) (query : Query)
  | createIndex (name : Ident) (onName : UnresolvedObjectName)
      (keyParts : Option ExprList) (withOptions : List SqlOption)
  | createType (name : UnresolvedObjectName) (withOptions : List SqlOption)
  | createSource (name : UnresolvedObjectName) (definition : String)
  | createSink (name : UnresolvedObjectName) (definition : String)
  | createSchema (name : UnresolvedObjectName)
  | otherStatement (rendered : String)

/-- Modelled from the spec: the visitor framework's recursive descent over a
data-type tree, invoking `TypeNormalizer`'s callback at every data-type
occurrence and preserving all other structure. -/
def typeRewriteDataType : DataType → DataType
  | .other name typMod => typeNormalizerVisitDataType (.other name typMod)
  | .array e => .array (typeRewriteDataType e)
  | .list e => .list (typeRewriteDataType e)
  | .map k v => .map (typeRewriteDataType k) (typeRewriteDataType v)

mutual

/-- Modelled from the spec: recursive descent of the `TypeNormalizer` visitor
over expressions; data types inside casts are rewritten, everything else is
traversed unchanged. -/
def typeRewriteExpr : Expr → Expr
  | .ident n => .ident n
  | .lit v => .lit v
  | .cast e ty => .cast (typeRewriteExpr e) (typeRewriteDataType ty)
  | .op o args => .op o (typeRewriteExprList args)
  | .call f => .call (typeRewriteFunc f)
  | .subquery q => .subquery (typeRewriteQuery q)

/-- `TypeNormalizer` descent over an expression list. -/
def typeRewriteExprList : ExprList → ExprList
  | .nil => .nil
  | .cons e es => .cons (typeRewriteExpr e) (typeRewriteExprList es)

/-- `TypeNormalizer` descent over a function call (no name rewriting: the
Type Qualifier only hooks data-type nodes). -/
def typeRewriteFunc : Func → Func
  | .mk n args => .mk n (typeRewriteExprList args)

/-- `TypeNormalizer` descent over an optional expression. -/
def typeRewriteOptExpr : OptExpr → OptExpr
  | .none => .none
  | .some e => .some (typeRewriteExpr e)

/-- `TypeNormalizer` descent over a table factor. -/
def typeRewriteTableFactor : TableFactor → TableFactor
  | .table n => .table n
  | .func n args => .func n (typeRewriteExprList args)
  | .derived q => .derived (typeRewriteQuery q)

/-- `TypeNormalizer` descent over a list of table factors. -/
def typeRewriteTableFactorList : TableFactorList → TableFactorList
  | .nil => .nil
  | .cons t ts => .cons (typeRewriteTableFactor t) (typeRewriteTableFactorList ts)

/-- `TypeNormalizer` descent over a query (`visit_query_mut`). -/
def typeRewriteQuery : Query → Query
  | .select proj frm sel =>
      .select (typeRewriteExprList proj) (typeRewriteTableFactorList frm)
        (typeRewriteOptExpr sel)

end

/-- `TypeNormalizer.visit_column_def_mut`: rewrite the column's data type. -/
def typeRewriteColumnDef (c : ColumnDef) : ColumnDef :=
  { c with dataType := typeRewriteDataType c.dataType }

/-- `TypeNormalizer` applied to a statement-level option
(`visit_sql_option_mut` / `visit_with_option_mut`): rewrite any data type in
the option's value. -/
def typeRewriteSqlOption (o : SqlOption) : SqlOption :=
  { o with value :=
      match o.value with
      | .value v => .value v
      | .dataType ty => .dataType (typeRewriteDataType ty) }

mutual

/-- Modelled from the spec: recursive descent of the `FuncNormalizer` visitor
(migrate.rs lines 148-159) over expressions: `visit_function_mut` rewrites
every function call's name through `normalize_function_name`, data types are
not hooked, and all other structure is preserved. -/
def funcRewriteExpr (bt : BuiltinTables) : Expr → Expr
  | .ident n => .ident n
  | .lit v => .lit v
  | .cast e ty => .cast (funcRewriteExpr bt e) ty
  | .op o args => .op o (funcRewriteExprList bt args)
  | .call f => .call (funcRewriteFunc bt f)
  | .subquery q => .subquery (funcRewriteQuery bt q)

/-- `FuncNormalizer` descent over an expression list. -/
def funcRewriteExprList (bt : BuiltinTables) : ExprList → ExprList
  | .nil => .nil
  | .cons e es => .cons (funcRewriteExpr bt e) (funcRewriteExprList bt es)

/-- `FuncNormalizer.visit_function_mut`: normalize the call's name, then
descend into the arguments. -/
def funcRewriteFunc (bt : BuiltinTables) : Func → Func
  | .mk n args => .mk (normalize_function_name bt n) (funcRewriteExprList bt args)

/-- `FuncNormalizer` descent over an optional expression. -/
def funcRewriteOptExpr (bt : BuiltinTables) : OptExpr → OptExpr
  | .none => .none
  | .some e => .some (funcRewriteExpr bt e)

/-- `FuncNormalizer.visit_table_factor_mut`: normalize the name of a
table-valued function reference; other table factors are only descended. -/
def funcRewriteTableFactor (bt : BuiltinTables) : TableFactor → TableFactor
  | .table n => .table n
  | .func n args => .func (normalize_function_name bt n) (funcRewriteExprList bt args)
  | .derived q => .derived (funcRewriteQuery bt q)

/-- `FuncNormalizer` descent over a list of table factors. -/
def funcRewriteTableFactorList (bt : BuiltinTables) : TableFactorList → TableFactorList
  | .nil => .nil
  | .cons t ts => .cons (funcRewriteTableFactor bt t) (funcRewriteTableFactorList bt ts)

/-- `FuncNormalizer` descent over a query (`visit_query_mut`). -/
def funcRewriteQuery (bt : BuiltinTables) : Query → Query
  | .select proj frm sel =>
      .select (funcRewriteExprList bt proj) (funcRewriteTableFactorList bt frm)
        (funcRewriteOptExpr bt sel)

end

/-- Modelled from the spec: rendering of an identifier path by the external
printer — segments joined by dots. -/
def renderName (n : UnresolvedObjectName) : String :=
  String.intercalate "." n.idents

/-- Modelled from the spec: the external stable printer on data types. -/
def renderDataType : DataType → String
  | .other n typMod =>
      renderName n ++
        (if typMod.isEmpty then ""
         else "(" ++ String.intercalate ", " (typMod.map toString) ++ ")")
  | .array e => renderDataType e ++ "[]"
  | .list e => renderDataType e ++ " list"
  | .map k v => "map[" ++ renderDataType k ++ " => " ++ renderDataType v ++ "]"

mutual

/-- Modelled from the spec: the external stable printer on expressions. -/
def renderExpr : Expr → String
  | .ident n => renderName n
  | .lit v => v
  | .cast e ty => "CAST(" ++ renderExpr e ++ " AS " ++ renderDataType ty ++ ")"
  | .op o args => o ++ "(" ++ renderExprList args ++ ")"
  | .call f => renderFunc f
  | .subquery q => "(" ++ renderQuery q ++ ")"

/-- Stable printer on expression lists (comma separated). -/
def renderExprList : ExprList → String
  | .nil => ""
  | .cons e .nil => renderExpr e
  | .cons e es => renderExpr e ++ ", " ++ renderExprList es

/-- Stable printer on function calls. -/
def renderFunc : Func → String
  | .mk n args => renderName n ++ "(" ++ renderExprList args ++ ")"

/-- Stable printer on optional selections. -/
def renderOptExpr : OptExpr → String
  | .none => ""
  | .some e => " WHERE " ++ renderExpr e

/-- Stable printer on table factors. -/
def renderTableFactor : TableFactor → String
  | .table n => renderName n
  | .func n args => renderName n ++ "(" ++ renderExprList args ++ ")"
  | .derived q => "(" ++ renderQuery q ++ ")"

/-- Stable printer on from-clauses. -/
def renderTableFactorList : TableFactorList → String
  | .nil => ""
  | .cons t .nil => renderTableFactor t
  | .cons t ts => renderTableFactor t ++ ", " ++ renderTableFactorList ts

/-- Stable printer on query bodies. -/
def renderQuery : Query → String
  | .select proj frm sel =>
      "SELECT " ++ renderExprList proj ++
        (match frm with
         | .nil => ""
         | frm => " FROM " ++ renderTableFactorList frm) ++
        renderOptExpr sel

end

/-- Stable printer on column definitions. -/
def renderColumnDef (c : ColumnDef) : String :=
  c.name ++ " " ++ renderDataType c.dataType

/-- Stable printer on statement-level options. -/
def renderSqlOption (o : SqlOption) : String :=
  o.name ++ " = " ++
    (match o.value with
     | .value v => v
     | .dataType ty => renderDataType ty)

/-- Modelled from the spec: the external stable printer
(`to_ast_string_stable`, and the `Display` rendering used in error
messages) on whole statements. -/
def renderStatement : Statement → String
  | .createTable n cols =>
      "CREATE TABLE " ++ renderName n ++ " (" ++
        String.intercalate ", " (cols.map renderColumnDef) ++ ")"
  | .createView n q => "CREATE VIEW " ++ renderName n ++ " AS " ++ renderQuery q
  | .createIndex n onN keyParts withOptions =>
      "CREATE INDEX " ++ n ++ " ON " ++ renderName onN ++
        (match keyParts with
         | Option.none => ""
         | Option.some kp => " (" ++ renderExprList kp ++ ")") ++
        (if withOptions.isEmpty then ""
         else " WITH (" ++ String.intercalate ", " (withOptions.map renderSqlOption) ++ ")")
  | .createType n withOptions =>
      "CREATE TYPE " ++ renderName n ++ " WITH (" ++
        String.intercalate ", " (withOptions.map renderSqlOption) ++ ")"
  | .createSource n d => "CREATE SOURCE " ++ renderName n ++ " FROM " ++ d
  | .createSink n d => "CREATE SINK " ++ renderName n ++ " FROM " ++ d
  | .createSchema n => "CREATE SCHEMA " ++ renderName n
  | .otherStatement r => r

/-- The error message built by the `bail!` arms of both migrations
(migrate.rs lines 116 and 204). -/
def inappropriateStatementMessage (stmt : Statement) : String :=
  "catalog item contained inappropriate statement: " ++ renderStatement stmt

/-- The per-statement-kind dispatch of `CONTENT_MIGRATIONS[0]` (the Type
Qualifier step, migrate.rs lines 61-117): table, view, index and type
statements have the `TypeNormalizer` applied to the sub-trees the source
enumerates and are re-staged; sources and sinks are skipped (`continue`,
hence `Option.none`); any other kind fails with the `bail!` message. -/
def typeDispatch : Statement → Except String (Option Statement)
  | .createTable n cols => .ok (Option.some (.createTable n (cols.map typeRewriteColumnDef)))
  | .createView n q => .ok (Option.some (.createView n (typeRewriteQuery q)))
  | .createIndex n onN keyParts withOptions =>
      .ok (Option.some (.createIndex n onN (keyParts.map typeRewriteExprList)
        (withOptions.map typeRewriteSqlOption)))
  | .createType n withOptions =>
      .ok (Option.some (.createType n (withOptions.map typeRewriteSqlOption)))
  | .createSource _ _ => .ok Option.none
  | .createSink _ _ => .ok Option.none
  | stmt => .error (inappropriateStatementMessage stmt)

/-- The per-statement-kind dispatch of `CONTENT_MIGRATIONS[1]` (the Function
Qualifier step, migrate.rs lines 172-205): views have the `FuncNormalizer`
applied to the whole query, indexes only to their key expressions (never to
`with_options`); tables, sinks, sources and types are skipped (`continue`);
any other kind fails with the `bail!` message. -/
def funcDispatch (bt : BuiltinTables) : Statement → Except String (Option Statement)
  | .createView n q => .ok (Option.some (.createView n (funcRewriteQuery bt q)))
  | .createIndex n onN keyParts withOptions =>
      .ok (Option.some (.createIndex n onN (keyParts.map (funcRewriteExprList bt))
        withOptions))
  | .createTable _ _ => .ok Option.none
  | .createSink _ _ => .ok Option.none
  | .createSource _ _ => .ok Option.none
  | .createType _ _ => .ok Option.none
  | stmt => .error (inappropriateStatementMessage stmt)

/-- `SerializedCatalogItem` from `crate::catalog`: the versioned envelope
around an item's SQL text, currently the single variant `V1` with the
`create_sql` text and the opaque `eval_env` metadata. -/
inductive SerializedCatalogItem where
  | v1 (createSql : String) (evalEnv : Option String)
deriving DecidableEq, Repr

/-- Modelled from the spec: the serialized bytes of an item's definition, as
far as the engine observes them — either a decodable envelope or garbage. -/
abbrev Bytes := Option SerializedCatalogItem

/-- Modelled from the spec: `serde_json::from_slice` — decoding the envelope
from stored bytes, which can fail (and the failure propagates with `?`). -/
def decodeItem : Bytes → Except String SerializedCatalogItem
  | Option.some s => .ok s
  | Option.none => .error "failed to deserialize catalog item"

/-- Modelled from the spec: `serde_json::to_vec` — re-encoding the envelope,
a total function ("catalog serialization cannot fail"). -/
def encodeItem (s : SerializedCatalogItem) : Bytes := Option.some s

/-- One persisted catalog item as loaded by `storage.load_items()`:
identifier, name and serialized definition. -/
structure CatalogItem where
  id : Nat
  name : String
  definition : Bytes
deriving DecidableEq

/-- One staged update, as passed to `tx.update_item(id, name, bytes)`. -/
abbrev Update := Nat × String × Bytes

/-- The per-item body of both migration closures (migrate.rs lines 54-127
and 165-215), parameterized by the external parser and by the policy's
dispatch: decode the envelope, parse `create_sql`, dispatch on the statement
kind, and either stage nothing (skip), stage one update carrying the
re-rendered statement under the same `eval_env`, or fail. -/
def migrateItem (parse : String → Except String Statement)
    (dispatch : Statement → Except String (Option Statement))
    (item : CatalogItem) : Except String (Option Update) :=
  match decodeItem item.definition with
  | .error e => .error e
  | .ok (.v1 createSql evalEnv) =>
    match parse createSql with
    | .error e => .error e
    | .ok stmt =>
      match dispatch stmt with
      | .error e => .error e
      | .ok Option.none => .ok Option.none
      | .ok (Option.some stmt2) =>
          .ok (Option.some (item.id, item.name,
            encodeItem (SerializedCatalogItem.v1 (renderStatement stmt2) evalEnv)))

/-- The item loop of a migration closure: process the loaded items in order,
accumulating the staged updates; the first per-item failure aborts the whole
loop (`?` propagation). -/
def stageItems (parse : String → Except String Statement)
    (dispatch : Statement → Except String (Option Statement)) :
    List CatalogItem → Except String (List Update)
  | [] => .ok []
  | item :: rest =>
    match migrateItem parse dispatch item with
    | .error e => .error e
    | .ok Option.none => stageItems parse dispatch rest
    | .ok (Option.some u) =>
      match stageItems parse dispatch rest with
      | .error e => .error e
      | .ok us => .ok (u :: us)

/-- Modelled from the spec: one whole Migration Step over the loaded items,
ending in `tx.commit()` — on success the result carries every staged update
(the commit applies them all); on failure nothing is committed. -/
def runStep (parse : String → Except String Statement)
    (dispatch : Statement → Except String (Option Statement))
    (items : List CatalogItem) : Except String (List Update) :=
  stageItems parse dispatch items

/-- `CONTENT_MIGRATIONS`: the ordered, append-only migration registry — the
Type Qualifier step first, then the Function Qualifier step. -/
def CONTENT_MIGRATIONS (parse : String → Except String Statement)
    (bt : BuiltinTables) : List (List CatalogItem → Except String (List Update)) :=
  [runStep parse typeDispatch, runStep parse (funcDispatch bt)]

/-- Modelled from the spec: the updates the transaction actually commits —
all staged updates on success, none at all on failure. -/
def committedUpdates (result : Except String (List Update)) : List Update :=
  match result with
  | .ok us => us
  | .error _ => []

/-- Modelled from the spec: the stored definition of one item after the
step — the committed update for its id if there is one, otherwise the
original bytes. -/
def finalDefinition (result : Except String (List Update))
    (item : CatalogItem) : Bytes :=
  match (committedUpdates result).find? (fun u => u.1 == item.id) with
  | Option.some u => u.2.2
  | Option.none => item.definition

/-- Whether a step result is a success. -/
def stepOk {α : Type} (r : Except String α) : Bool :=
  match r with
  | .ok _ => true
  | .error _ => false

/-- Whether a statement's kind is one of the six `Create` kinds enumerated
in the dispatch tables of both policies; every other kind hits a `bail!`
arm. -/
def isKnownCreateKind : Statement → Bool
  | .createTable .. => true
  | .createView .. => true
  | .createIndex .. => true
  | .createType .. => true
  | .createSource .. => true
  | .createSink .. => true
  | _ => false

/-- The statement kinds the Type Qualifier marks as skip (`continue`):
sources and sinks. -/
def isTypeSkipKind : Statement → Bool
  | .createSource .. => true
  | .createSink .. => true
  | _ => false

/-- The statement kinds the Function Qualifier marks as skip (`continue`):
tables, sinks, sources and types. -/
def isFuncSkipKind : Statement → Bool
  | .createTable .. => true
  | .createSink .. => true
  | .createSource .. => true
  | .createType .. => true
  | _ => false

end Migrate

namespace Migrate

/-- Rendering a one-segment identifier path yields its only segment. -/
theorem intercalate_singleton (s x : String) : String.intercalate s [x] = x := rfl

/-- C1: Type Qualifier rewrite rule. An unresolved (`Other`) data type node
visited by the Type Qualifier is rewritten exactly when its name has one
segment, and the rewrite prepends the fixed `pg_catalog` segment, yielding
the two-segment name `[pg_catalog, original-segment]`; any other segment
count is left untouched. -/
theorem typeQualifier_rewrite_rule (name : UnresolvedObjectName) (typMod : List Nat) :
    (∀ x, name.idents = [x] →
      typeNormalizerVisitDataType (DataType.other name typMod)
        = DataType.other ⟨[PG_CATALOG_SCHEMA, x]⟩ typMod) ∧
    (name.idents.length ≠ 1 →
      typeNormalizerVisitDataType (DataType.other name typMod)
        = DataType.other name typMod) ∧
    (typeNormalizerVisitDataType (DataType.other name typMod)
        ≠ DataType.other name typMod ↔ name.idents.length = 1) := by
  refine ⟨?_, ?_, ?_, ?_⟩
  · intro x hx
    simp [typeNormalizerVisitDataType, hx]
  · intro h
    simp [typeNormalizerVisitDataType, h]
  · intro hne
    by_contra h
    exact hne (by simp [typeNormalizerVisitDataType, h])
  · intro h heq
    simp [typeNormalizerVisitDataType, h] at heq
    exact List.cons_ne_self PG_CATALOG_SCHEMA name.idents
      (congrArg UnresolvedObjectName.idents heq)

/-- Witness for C1 at concrete inputs: the bare name `int8` is qualified to
`pg_catalog.int8`, and the already-qualified `a.b` is untouched. -/
theorem typeQualifier_rewrite_rule_witness :
    typeNormalizerVisitDataType (DataType.other ⟨["int8"]⟩ [])
      = DataType.other ⟨["pg_catalog", "int8"]⟩ [] ∧
    typeNormalizerVisitDataType (DataType.other ⟨["a", "b"]⟩ [])
      = DataType.other ⟨["a", "b"]⟩ [] := by
  constructor
  · have h := (typeQualifier_rewrite_rule ⟨["int8"]⟩ []).1 "int8" rfl
    simpa [PG_CATALOG_SCHEMA] using h
  · exact (typeQualifier_rewrite_rule ⟨["a", "b"]⟩ []).2.1 (by decide)

/-- C2: Function Qualifier precedence rule. A single-segment name is
qualified with the first namespace, in the order `pg_catalog`, `mz_catalog`,
`mz_internal`, whose table contains the bare name (so a name present both in
`pg_catalog` and in a secondary namespace is always qualified with
`pg_catalog`); a name present in no namespace is left unqualified. -/
theorem funcQualifier_precedence (bt : BuiltinTables) (x : String) :
    (bt.pgCatalog.contains x = true →
      normalize_function_name bt ⟨[x]⟩ = ⟨[PG_CATALOG_SCHEMA, x]⟩) ∧
    (bt.pgCatalog.contains x = false → bt.mzCatalog.contains x = true →
      normalize_function_name bt ⟨[x]⟩ = ⟨[MZ_CATALOG_SCHEMA, x]⟩) ∧
    (bt.pgCatalog.contains x = false → bt.mzCatalog.contains x = false →
      bt.mzInternal.contains x = true →
      normalize_function_name bt ⟨[x]⟩ = ⟨[MZ_INTERNAL_SCHEMA, x]⟩) ∧
    (bt.pgCatalog.contains x = false → bt.mzCatalog.contains x = false →
      bt.mzInternal.contains x = false →
      normalize_function_name bt ⟨[x]⟩ = ⟨[x]⟩) := by
  refine ⟨?_, ?_, ?_, ?_⟩ <;>
    intros <;>
    simp_all [normalize_function_name, namespaceOrder, List.find?, intercalate_singleton]

/-- Witness for C2 at concrete inputs: with `f` in both the pg_catalog and
mz_catalog tables it resolves to `pg_catalog.f`; with `g` only internal it
resolves to `mz_internal.g`; the unknown `h` stays bare. -/
theorem funcQualifier_precedence_witness :
    normalize_function_name ⟨["f"], ["f", "g0"], []⟩ ⟨["f"]⟩ = ⟨["pg_catalog", "f"]⟩ ∧
    normalize_function_name ⟨["f"], [], ["g"]⟩ ⟨["g"]⟩ = ⟨["mz_internal", "g"]⟩ ∧
    normalize_function_name ⟨["f"], [], ["g"]⟩ ⟨["h"]⟩ = ⟨["h"]⟩ := by
  refine ⟨?_, ?_, ?_⟩
  · have h := (funcQualifier_precedence ⟨["f"], ["f", "g0"], []⟩ "f").1 (by decide)
    simpa [PG_CATALOG_SCHEMA] using h
  · have h := (funcQualifier_precedence ⟨["f"], [], ["g"]⟩ "g").2.2.1
      (by decide) (by decide) (by decide)
    simpa [MZ_INTERNAL_SCHEMA] using h
  · exact (funcQualifier_precedence ⟨["f"], [], ["g"]⟩ "h").2.2.2
      (by decide) (by decide) (by decide)

/-- The Type Qualifier's data-type rewrite is idempotent: a rewritten name
has two segments and fails the one-segment eligibility check. -/
theorem typeRewriteDataType_idem (dt : DataType) :
    typeRewriteDataType (typeRewriteDataType dt) = typeRewriteDataType dt := by
  induction dt with
  | other n tm =>
      by_cases h : n.idents.length = 1
      · simp [typeRewriteDataType, typeNormalizerVisitDataType, h]
      · simp [typeRewriteDataType, typeNormalizerVisitDataType, h]
  | array e ih => simp [typeRewriteDataType, ih]
  | list e ih => simp [typeRewriteDataType, ih]
  | map k v ihk ihv => simp [typeRewriteDataType, ihk, ihv]

/-- Unfolding of `normalize_function_name` on an eligible (one-segment)
name: the result is decided by the first namespace whose table contains the
rendered name. -/
theorem normalize_function_name_eq_of_find (bt : BuiltinTables)
    (n : UnresolvedObjectName) (h : n.idents.length = 1) :
    normalize_function_name bt n =
      match (namespaceOrder bt).find?
          (fun p => p.2.contains (String.intercalate "." n.idents)) with
      | Option.some p => ⟨[p.1] ++ n.idents⟩
      | Option.none => n := by
  unfold normalize_function_name
  rw [if_pos h]

/-- `normalize_function_name` leaves any name of a different segment count
unchanged. -/
theorem normalize_function_name_of_len_ne (bt : BuiltinTables)
    (n : UnresolvedObjectName) (h : ¬ n.idents.length = 1) :
    normalize_function_name bt n = n := by
  unfold normalize_function_name
  rw [if_neg h]

/-- `normalize_function_name` is idempotent: a qualified name has two
segments and fails the one-segment eligibility check. -/
theorem normalize_function_name_idem (bt : BuiltinTables) (n : UnresolvedObjectName) :
    normalize_function_name bt (normalize_function_name bt n)
      = normalize_function_name bt n := by
  by_cases h : n.idents.length = 1
  · rw [normalize_function_name_eq_of_find bt n h]
    cases hf : (namespaceOrder bt).find?
        (fun p => p.2.contains (String.intercalate "." n.idents)) with
    | none =>
        show normalize_function_name bt n = n
        rw [normalize_function_name_eq_of_find bt n h, hf]
    | some p =>
        show normalize_function_name bt ⟨[p.1] ++ n.idents⟩ = ⟨[p.1] ++ n.idents⟩
        exact normalize_function_name_of_len_ne bt _ (by simp [h])
  · rw [normalize_function_name_of_len_ne bt n h,
      normalize_function_name_of_len_ne bt n h]

mutual

/-- `TypeNormalizer` idempotence on expressions. -/
theorem typeRewriteExpr_idem :
    ∀ e, typeRewriteExpr (typeRewriteExpr e) = typeRewriteExpr e
  | .ident _ => rfl
  | .lit _ => rfl
  | .cast e ty => by
      simp [typeRewriteExpr, typeRewriteExpr_idem e, typeRewriteDataType_idem ty]
  | .op o args => by simp [typeRewriteExpr, typeRewriteExprList_idem args]
  | .call f => by simp [typeRewriteExpr, typeRewriteFunc_idem f]
  | .subquery q => by simp [typeRewriteExpr, typeRewriteQuery_idem q]

/-- `TypeNormalizer` idempotence on expression lists. -/
theorem typeRewriteExprList_idem :
    ∀ es, typeRewriteExprList (typeRewriteExprList es) = typeRewriteExprList es
  | .nil => rfl
  | .cons e es => by
      simp [typeRewriteExprList, typeRewriteExpr_idem e, typeRewriteExprList_idem es]

/-- `TypeNormalizer` idempotence on function calls. -/
theorem typeRewriteFunc_idem :
    ∀ f, typeRewriteFunc (typeRewriteFunc f) = typeRewriteFunc f
  | .mk n args => by simp [typeRewriteFunc, typeRewriteExprList_idem args]

/-- `TypeNormalizer` idempotence on optional expressions. -/
theorem typeRewriteOptExpr_idem :
    ∀ oe, typeRewriteOptExpr (typeRewriteOptExpr oe) = typeRewriteOptExpr oe
  | .none => rfl
  | .some e => by simp [typeRewriteOptExpr, typeRewriteExpr_idem e]

/-- `TypeNormalizer` idempotence on table factors. -/
theorem typeRewriteTableFactor_idem :
    ∀ t, typeRewriteTableFactor (typeRewriteTableFactor t) = typeRewriteTableFactor t
  | .table _ => rfl
  | .func n args => by simp [typeRewriteTableFactor, typeRewriteExprList_idem args]
  | .derived q => by simp [typeRewriteTableFactor, typeRewriteQuery_idem q]

/-- `TypeNormalizer` idempotence on lists of table factors. -/
theorem typeRewriteTableFactorList_idem :
    ∀ ts, typeRewriteTableFactorList (typeRewriteTableFactorList ts)
      = typeRewriteTableFactorList ts
  | .nil => rfl
  | .cons t ts => by
      simp [typeRewriteTableFactorList, typeRewriteTableFactor_idem t,
        typeRewriteTableFactorList_idem ts]

/-- `TypeNormalizer` idempotence on queries. -/
theorem typeRewriteQuery_idem :
    ∀ q, typeRewriteQuery (typeRewriteQuery q) = typeRewriteQuery q
  | .select proj frm sel => by
      simp [typeRewriteQuery, typeRewriteExprList_idem proj,
        typeRewriteTableFactorList_idem frm, typeRewriteOptExpr_idem sel]

end

mutual

/-- `FuncNormalizer` idempotence on expressions. -/
theorem funcRewriteExpr_idem (bt : BuiltinTables) :
    ∀ e, funcRewriteExpr bt (funcRewriteExpr bt e) = funcRewriteExpr bt e
  | .ident _ => rfl
  | .lit _ => rfl
  | .cast e ty => by simp [funcRewriteExpr, funcRewriteExpr_idem bt e]
  | .op o args => by simp [funcRewriteExpr, funcRewriteExprList_idem bt args]
  | .call f => by simp [funcRewriteExpr, funcRewriteFunc_idem bt f]
  | .subquery q => by simp [funcRewriteExpr, funcRewriteQuery_idem bt q]

/-- `FuncNormalizer` idempotence on expression lists. -/
theorem funcRewriteExprList_idem (bt : BuiltinTables) :
    ∀ es, funcRewriteExprList bt (funcRewriteExprList bt es) = funcRewriteExprList bt es
  | .nil => rfl
  | .cons e es => by
      simp [funcRewriteExprList, funcRewriteExpr_idem bt e, funcRewriteExprList_idem bt es]

/-- `FuncNormalizer` idempotence on function calls. -/
theorem funcRewriteFunc_idem (bt : BuiltinTables) :
    ∀ f, funcRewriteFunc bt (funcRewriteFunc bt f) = funcRewriteFunc bt f
  | .mk n args => by
      simp [funcRewriteFunc, normalize_function_name_idem bt n,
        funcRewriteExprList_idem bt args]

/-- `FuncNormalizer` idempotence on optional expressions. -/
theorem funcRewriteOptExpr_idem (bt : BuiltinTables) :
    ∀ oe, funcRewriteOptExpr bt (funcRewriteOptExpr bt oe) = funcRewriteOptExpr bt oe
  | .none => rfl
  | .some e => by simp [funcRewriteOptExpr, funcRewriteExpr_idem bt e]

/-- `FuncNormalizer` idempotence on table factors. -/
theorem funcRewriteTableFactor_idem (bt : BuiltinTables) :
    ∀ t, funcRewriteTableFactor bt (funcRewriteTableFactor bt t)
      = funcRewriteTableFactor bt t
  | .table _ => rfl
  | .func n args => by
      simp [funcRewriteTableFactor, normalize_function_name_idem bt n,
        funcRewriteExprList_idem bt args]
  | .derived q => by simp [funcRewriteTableFactor, funcRewriteQuery_idem bt q]

/-- `FuncNormalizer` idempotence on lists of table factors. -/
theorem funcRewriteTableFactorList_idem (bt : BuiltinTables) :
    ∀ ts, funcRewriteTableFactorList bt (funcRewriteTableFactorList bt ts)
      = funcRewriteTableFactorList bt ts
  | .nil => rfl
  | .cons t ts => by
      simp [funcRewriteTableFactorList, funcRewriteTableFactor_idem bt t,
        funcRewriteTableFactorList_idem bt ts]

/-- `FuncNormalizer` idempotence on queries. -/
theorem funcRewriteQuery_idem (bt : BuiltinTables) :
    ∀ q, funcRewriteQuery bt (funcRewriteQuery bt q) = funcRewriteQuery bt q
  | .select proj frm sel => by
      simp [funcRewriteQuery, funcRewriteExprList_idem bt proj,
        funcRewriteTableFactorList_idem bt frm, funcRewriteOptExpr_idem bt sel]

end

/-- `TypeNormalizer` idempotence on column definitions. -/
theorem typeRewriteColumnDef_idem (c : ColumnDef) :
    typeRewriteColumnDef (typeRewriteColumnDef c) = typeRewriteColumnDef c := by
  simp [typeRewriteColumnDef, typeRewriteDataType_idem]

/-- `TypeNormalizer` idempotence on statement-level options. -/
theorem typeRewriteSqlOption_idem (o : SqlOption) :
    typeRewriteSqlOption (typeRewriteSqlOption o) = typeRewriteSqlOption o := by
  cases o with
  | mk n v =>
      cases v with
      | value s => simp [typeRewriteSqlOption]
      | dataType ty => simp [typeRewriteSqlOption, typeRewriteDataType_idem]

/-- C3: Idempotence. Applying a Rewrite Policy (Type Qualifier or Function
Qualifier) twice in succession to a statement tree produces the same tree as
applying it once: whenever one application produces a tree, dispatching the
policy again on that tree returns it unchanged, because every rewritten name
has two segments and fails the segment-count-equal-to-one eligibility
check. -/
theorem rewritePolicy_idempotent :
    (∀ s s', typeDispatch s = .ok (Option.some s') →
      typeDispatch s' = .ok (Option.some s')) ∧
    (∀ (bt : BuiltinTables) s s', funcDispatch bt s = .ok (Option.some s') →
      funcDispatch bt s' = .ok (Option.some s')) := by
  constructor
  · intro s s' h
    cases s with
    | createTable n cols =>
        simp [typeDispatch] at h
        subst h
        simp [typeDispatch, List.map_map, Function.comp_def, typeRewriteColumnDef_idem]
    | createView n q =>
        simp [typeDispatch] at h
        subst h
        simp [typeDispatch, typeRewriteQuery_idem]
    | createIndex n onN kp wo =>
        simp [typeDispatch] at h
        subst h
        cases kp with
        | none =>
            simp [typeDispatch, List.map_map, Function.comp_def, typeRewriteSqlOption_idem]
        | some kps =>
            simp [typeDispatch, List.map_map, Function.comp_def, typeRewriteSqlOption_idem,
              typeRewriteExprList_idem]
    | createType n wo =>
        simp [typeDispatch] at h
        subst h
        simp [typeDispatch, List.map_map, Function.comp_def, typeRewriteSqlOption_idem]
    | createSource n d => simp [typeDispatch] at h
    | createSink n d => simp [typeDispatch] at h
    | createSchema n => simp [typeDispatch, inappropriateStatementMessage] at h
    | otherStatement r => simp [typeDispatch, inappropriateStatementMessage] at h
  · intro bt s s' h
    cases s with
    | createView n q =>
        simp [funcDispatch] at h
        subst h
        simp [funcDispatch, funcRewriteQuery_idem]
    | createIndex n onN kp wo =>
        simp [funcDispatch] at h
        subst h
        cases kp with
        | none => simp [funcDispatch]
        | some kps => simp [funcDispatch, funcRewriteExprList_idem]
    | createTable n cols => simp [funcDispatch] at h
    | createSink n d => simp [funcDispatch] at h
    | createSource n d => simp [funcDispatch] at h
    | createType n wo => simp [funcDispatch] at h
    | createSchema n => simp [funcDispatch, inappropriateStatementMessage] at h
    | otherStatement r => simp [funcDispatch, inappropriateStatementMessage] at h

/-- Witness for C3 at a concrete input: the Type Qualifier applied to
`CREATE TABLE t (a int8)` yields the qualified column type, and a second
application returns that tree unchanged. -/
theorem rewritePolicy_idempotent_witness :
    typeDispatch (.createTable ⟨["t"]⟩
        [⟨"a", .other ⟨["pg_catalog", "int8"]⟩ []⟩])
      = .ok (Option.some (.createTable ⟨["t"]⟩
        [⟨"a", .other ⟨["pg_catalog", "int8"]⟩ []⟩])) :=
  rewritePolicy_idempotent.1
    (.createTable ⟨["t"]⟩ [⟨"a", .other ⟨["int8"]⟩ []⟩])
    (.createTable ⟨["t"]⟩ [⟨"a", .other ⟨["pg_catalog", "int8"]⟩ []⟩])
    rfl

/-- The Type Qualifier's dispatch hits its `bail!` arm on every statement
kind outside the six enumerated ones. -/
theorem typeDispatch_bail (stmt : Statement) (h : isKnownCreateKind stmt = false) :
    typeDispatch stmt = .error (inappropriateStatementMessage stmt) := by
  cases stmt <;> first
    | rfl
    | simp [isKnownCreateKind] at h

/-- The Function Qualifier's dispatch hits its `bail!` arm on every
statement kind outside the six enumerated ones. -/
theorem funcDispatch_bail (bt : BuiltinTables) (stmt : Statement)
    (h : isKnownCreateKind stmt = false) :
    funcDispatch bt stmt = .error (inappropriateStatementMessage stmt) := by
  cases stmt <;> first
    | rfl
    | simp [isKnownCreateKind] at h

/-- The Type Qualifier's dispatch skips (`continue`) exactly its skip
kinds. -/
theorem typeDispatch_skip (stmt : Statement) (h : isTypeSkipKind stmt = true) :
    typeDispatch stmt = .ok Option.none := by
  cases stmt <;> first
    | rfl
    | simp [isTypeSkipKind] at h

/-- The Function Qualifier's dispatch skips (`continue`) exactly its skip
kinds. -/
theorem funcDispatch_skip (bt : BuiltinTables) (stmt : Statement)
    (h : isFuncSkipKind stmt = true) :
    funcDispatch bt stmt = .ok Option.none := by
  cases stmt <;> first
    | rfl
    | simp [isFuncSkipKind] at h

/-- Per-item processing fails when the dispatch bails. -/
theorem migrateItem_fatal (parse : String → Except String Statement)
    (dispatch : Statement → Except String (Option Statement))
    (item : CatalogItem) (sql : String) (env : Option String)
    (stmt : Statement) (e : String)
    (hdec : decodeItem item.definition = .ok (.v1 sql env))
    (hparse : parse sql = .ok stmt)
    (hd : dispatch stmt = .error e) :
    migrateItem parse dispatch item = .error e := by
  simp only [migrateItem, hdec, hparse, hd]

/-- Per-item processing fails when the parse fails. -/
theorem migrateItem_parse_error (parse : String → Except String Statement)
    (dispatch : Statement → Except String (Option Statement))
    (item : CatalogItem) (sql : String) (env : Option String) (e : String)
    (hdec : decodeItem item.definition = .ok (.v1 sql env))
    (hparse : parse sql = .error e) :
    migrateItem parse dispatch item = .error e := by
  simp only [migrateItem, hdec, hparse]

/-- Per-item processing stages nothing when the dispatch skips. -/
theorem migrateItem_skip (parse : String → Except String Statement)
    (dispatch : Statement → Except String (Option Statement))
    (item : CatalogItem) (sql : String) (env : Option String) (stmt : Statement)
    (hdec : decodeItem item.definition = .ok (.v1 sql env))
    (hparse : parse sql = .ok stmt)
    (hd : dispatch stmt = .ok Option.none) :
    migrateItem parse dispatch item = .ok Option.none := by
  simp only [migrateItem, hdec, hparse, hd]

/-- Per-item processing stages exactly the re-rendered statement under the
unchanged `eval_env` when the dispatch rewrites. -/
theorem migrateItem_staged (parse : String → Except String Statement)
    (dispatch : Statement → Except String (Option Statement))
    (item : CatalogItem) (sql : String) (env : Option String)
    (stmt stmt2 : Statement)
    (hdec : decodeItem item.definition = .ok (.v1 sql env))
    (hparse : parse sql = .ok stmt)
    (hd : dispatch stmt = .ok (Option.some stmt2)) :
    migrateItem parse dispatch item
      = .ok (Option.some (item.id, item.name,
          encodeItem (SerializedCatalogItem.v1 (renderStatement stmt2) env))) := by
  simp only [migrateItem, hdec, hparse, hd]

/-- A staged update carries the id of the item it came from. -/
theorem migrateItem_id (parse : String → Except String Statement)
    (dispatch : Statement → Except String (Option Statement))
    (item : CatalogItem) (u : Update)
    (h : migrateItem parse dispatch item = .ok (Option.some u)) : u.1 = item.id := by
  unfold migrateItem at h
  cases hdec : decodeItem item.definition with
  | error e => simp [hdec] at h
  | ok s =>
    cases s with
    | v1 sql env =>
      simp only [hdec] at h
      cases hp : parse sql with
      | error e => simp [hp] at h
      | ok stmt =>
        simp only [hp] at h
        cases hd : dispatch stmt with
        | error e => simp [hd] at h
        | ok o =>
          cases o with
          | none => simp [hd] at h
          | some stmt2 =>
              simp only [hd, Except.ok.injEq, Option.some.injEq] at h
              rw [← h]

/-- The item loop fails as soon as one item fails, after any run of
successfully processed items. -/
theorem stageItems_error_after_ok (parse : String → Except String Statement)
    (dispatch : Statement → Except String (Option Statement))
    (pre post : List CatalogItem) (item : CatalogItem) (e : String)
    (hpre : ∀ i ∈ pre, stepOk (migrateItem parse dispatch i) = true)
    (hitem : migrateItem parse dispatch item = .error e) :
    stageItems parse dispatch (pre ++ item :: post) = .error e := by
  induction pre with
  | nil => simp only [List.nil_append, stageItems, hitem]
  | cons i pre ih =>
      have hi := hpre i (List.mem_cons_self i pre)
      have hrest : ∀ j ∈ pre, stepOk (migrateItem parse dispatch j) = true :=
        fun j hj => hpre j (List.mem_cons_of_mem i hj)
      cases hmi : migrateItem parse dispatch i with
      | error e2 => rw [hmi] at hi; simp [stepOk] at hi
      | ok o =>
          cases o with
          | none =>
              simp only [List.cons_append, stageItems, hmi]
              exact ih hrest
          | some u =>
              simp only [List.cons_append, stageItems, hmi, List.append_eq]
              rw [ih hrest]

/-- The item loop fails whenever any member of the batch fails. -/
theorem stageItems_error_of_mem (parse : String → Except String Statement)
    (dispatch : Statement → Except String (Option Statement))
    (items : List CatalogItem) (item : CatalogItem) (e : String)
    (hmem : item ∈ items)
    (hitem : migrateItem parse dispatch item = .error e) :
    stepOk (stageItems parse dispatch items) = false := by
  induction items with
  | nil => cases hmem
  | cons i rest ih =>
      cases hmi : migrateItem parse dispatch i with
      | error e2 => simp [stageItems, hmi, stepOk]
      | ok o =>
          have hmem2 : item ∈ rest := by
            cases hmem with
            | head => rw [hmi] at hitem; simp at hitem
            | tail _ htl => exact htl
          cases o with
          | none =>
              simp only [stageItems, hmi]
              exact ih hmem2
          | some u =>
              simp only [stageItems, hmi]
              cases hs : stageItems parse dispatch rest with
              | error e2 => simp [stepOk]
              | ok us =>
                  have hb := ih hmem2
                  rw [hs] at hb
                  simp [stepOk] at hb

/-- Every update staged by the item loop comes from some item of the batch
whose per-item processing produced exactly it. -/
theorem stageItems_updates_sourced (parse : String → Except String Statement)
    (dispatch : Statement → Except String (Option Statement))
    (items : List CatalogItem) (us : List Update)
    (h : stageItems parse dispatch items = .ok us) :
    ∀ u ∈ us, ∃ i ∈ items, migrateItem parse dispatch i = .ok (Option.some u) := by
  induction items generalizing us with
  | nil =>
      simp only [stageItems, Except.ok.injEq] at h
      subst h
      intro u hu
      cases hu
  | cons i rest ih =>
      cases hmi : migrateItem parse dispatch i with
      | error e => simp [stageItems, hmi] at h
      | ok o =>
        cases o with
        | none =>
            simp only [stageItems, hmi] at h
            intro u hu
            obtain ⟨j, hj, hj2⟩ := ih us h u hu
            exact ⟨j, List.mem_cons_of_mem i hj, hj2⟩
        | some u0 =>
            simp only [stageItems, hmi] at h
            cases hs : stageItems parse dispatch rest with
            | error e => rw [hs] at h; simp at h
            | ok us2 =>
                rw [hs] at h
                simp only [Except.ok.injEq] at h
                subst h
                intro u hu
                rcases List.mem_cons.mp hu with h1 | h2
                · subst h1
                  exact ⟨i, List.mem_cons_self i rest, hmi⟩
                · obtain ⟨j, hj, hj2⟩ := ih us2 hs u h2
                  exact ⟨j, List.mem_cons_of_mem i hj, hj2⟩

/-- C4: Fatal law with atomicity. If any item of the batch parses to a
statement kind outside a policy's dispatch table (the first failing item,
after any run of successfully processed items), the Migration Step returns
the `bail!` error, whose message is the fixed text followed by the offending
statement's rendered text, and the transaction commits zero updates — also
for the valid items of the same batch. -/
theorem fatal_law_atomicity (parse : String → Except String Statement)
    (bt : BuiltinTables) (dispatch : Statement → Except String (Option Statement))
    (pre post : List CatalogItem) (item : CatalogItem) (sql : String)
    (env : Option String) (stmt : Statement)
    (hdispatch : dispatch = typeDispatch ∨ dispatch = funcDispatch bt)
    (hdec : decodeItem item.definition = .ok (.v1 sql env))
    (hparse : parse sql = .ok stmt)
    (hkind : isKnownCreateKind stmt = false)
    (hpre : ∀ i ∈ pre, stepOk (migrateItem parse dispatch i) = true) :
    runStep parse dispatch (pre ++ item :: post)
        = .error (inappropriateStatementMessage stmt) ∧
    committedUpdates (runStep parse dispatch (pre ++ item :: post)) = [] ∧
    inappropriateStatementMessage stmt
      = "catalog item contained inappropriate statement: " ++ renderStatement stmt := by
  have hd : dispatch stmt = .error (inappropriateStatementMessage stmt) := by
    cases hdispatch with
    | inl h => rw [h]; exact typeDispatch_bail stmt hkind
    | inr h => rw [h]; exact funcDispatch_bail bt stmt hkind
  have hitem := migrateItem_fatal parse dispatch item sql env stmt
    (inappropriateStatementMessage stmt) hdec hparse hd
  have herr := stageItems_error_after_ok parse dispatch pre post item
    (inappropriateStatementMessage stmt) hpre hitem
  refine ⟨herr, ?_, rfl⟩
  unfold runStep
  rw [herr]
  rfl

/-- Witness for C4: a batch with one valid `CREATE SOURCE` item followed by
an item parsing to `CREATE SCHEMA` makes the Type Qualifier step fail with
the message carrying the rendered offending statement, and commits zero
updates. -/
theorem fatal_law_atomicity_witness :
    runStep
        (fun sql => if sql = "CREATE SOURCE s FROM x"
          then .ok (.createSource ⟨["s"]⟩ "x")
          else .ok (.createSchema ⟨["sch"]⟩))
        typeDispatch
        [⟨1, "good", Option.some (.v1 "CREATE SOURCE s FROM x" Option.none)⟩,
         ⟨2, "bad", Option.some (.v1 "CREATE SCHEMA sch" Option.none)⟩]
      = .error (inappropriateStatementMessage (.createSchema ⟨["sch"]⟩)) ∧
    committedUpdates (runStep
        (fun sql => if sql = "CREATE SOURCE s FROM x"
          then .ok (.createSource ⟨["s"]⟩ "x")
          else .ok (.createSchema ⟨["sch"]⟩))
        typeDispatch
        [⟨1, "good", Option.some (.v1 "CREATE SOURCE s FROM x" Option.none)⟩,
         ⟨2, "bad", Option.some (.v1 "CREATE SCHEMA sch" Option.none)⟩]) = [] ∧
    inappropriateStatementMessage (.createSchema ⟨["sch"]⟩)
      = "catalog item contained inappropriate statement: "
          ++ renderStatement (.createSchema ⟨["sch"]⟩) :=
  fatal_law_atomicity
    (fun sql => if sql = "CREATE SOURCE s FROM x"
      then .ok (.createSource ⟨["s"]⟩ "x")
      else .ok (.createSchema ⟨["sch"]⟩))
    ⟨[], [], []⟩ typeDispatch
    [⟨1, "good", Option.some (.v1 "CREATE SOURCE s FROM x" Option.none)⟩] []
    ⟨2, "bad", Option.some (.v1 "CREATE SCHEMA sch" Option.none)⟩
    "CREATE SCHEMA sch" Option.none (.createSchema ⟨["sch"]⟩)
    (Or.inl rfl) rfl rfl rfl
    (by
      intro i hi
      rw [List.mem_singleton] at hi
      subst hi
      rfl)

/-- C5: Parse-failure atomicity. If any item of the batch decodes but its
`create_sql` fails to parse, the whole Migration Step returns an error and
zero updates are committed, including for items processed successfully
before the failing one. -/
theorem parse_failure_atomicity (parse : String → Except String Statement)
    (dispatch : Statement → Except String (Option Statement))
    (items : List CatalogItem) (item : CatalogItem) (sql : String)
    (env : Option String) (e : String)
    (hmem : item ∈ items)
    (hdec : decodeItem item.definition = .ok (.v1 sql env))
    (hparse : parse sql = .error e) :
    stepOk (runStep parse dispatch items) = false ∧
    committedUpdates (runStep parse dispatch items) = [] := by
  have hitem := migrateItem_parse_error parse dispatch item sql env e hdec hparse
  have herr := stageItems_error_of_mem parse dispatch items item e hmem hitem
  refine ⟨herr, ?_⟩
  unfold runStep at herr ⊢
  cases hs : stageItems parse dispatch items with
  | error e2 => simp [committedUpdates]
  | ok us => rw [hs] at herr; simp [stepOk] at herr

/-- Witness for C5: a batch whose first item is a valid source and whose
second item has unparseable text — the step fails and commits nothing. -/
theorem parse_failure_atomicity_witness :
    stepOk (runStep
        (fun sql => if sql = "CREATE SOURCE s FROM x"
          then .ok (.createSource ⟨["s"]⟩ "x")
          else .error "parse failed")
        typeDispatch
        [⟨1, "good", Option.some (.v1 "CREATE SOURCE s FROM x" Option.none)⟩,
         ⟨2, "bad", Option.some (.v1 "garbage" Option.none)⟩]) = false ∧
    committedUpdates (runStep
        (fun sql => if sql = "CREATE SOURCE s FROM x"
          then .ok (.createSource ⟨["s"]⟩ "x")
          else .error "parse failed")
        typeDispatch
        [⟨1, "good", Option.some (.v1 "CREATE SOURCE s FROM x" Option.none)⟩,
         ⟨2, "bad", Option.some (.v1 "garbage" Option.none)⟩]) = [] :=
  parse_failure_atomicity
    (fun sql => if sql = "CREATE SOURCE s FROM x"
      then .ok (.createSource ⟨["s"]⟩ "x")
      else .error "parse failed")
    typeDispatch
    [⟨1, "good", Option.some (.v1 "CREATE SOURCE s FROM x" Option.none)⟩,
     ⟨2, "bad", Option.some (.v1 "garbage" Option.none)⟩]
    ⟨2, "bad", Option.some (.v1 "garbage" Option.none)⟩
    "garbage" Option.none "parse failed"
    (by simp) rfl rfl

/-- C7: Envelope frame property. For every item a Migration Step rewrites,
the staged re-encoded definition is again a `V1` envelope whose `eval_env`
equals the decoded input's; only `create_sql` (replaced by the stable
rendering of the rewritten tree) may differ. -/
theorem envelope_frame (parse : String → Except String Statement)
    (dispatch : Statement → Except String (Option Statement))
    (item : CatalogItem) (sql : String) (env : Option String)
    (stmt stmt2 : Statement)
    (hdec : decodeItem item.definition = .ok (.v1 sql env))
    (hparse : parse sql = .ok stmt)
    (hd : dispatch stmt = .ok (Option.some stmt2)) :
    ∃ newSql,
      migrateItem parse dispatch item
        = .ok (Option.some (item.id, item.name, encodeItem (.v1 newSql env))) ∧
      decodeItem (encodeItem (.v1 newSql env)) = .ok (.v1 newSql env) :=
  ⟨renderStatement stmt2,
    migrateItem_staged parse dispatch item sql env stmt stmt2 hdec hparse hd, rfl⟩

/-- Witness for C7: rewriting `CREATE TABLE t (a int8)` stages a `V1`
envelope with the same (`none`) eval_env. -/
theorem envelope_frame_witness :
    ∃ newSql,
      migrateItem (fun _ => .ok (.createTable ⟨["t"]⟩ [⟨"a", .other ⟨["int8"]⟩ []⟩]))
          typeDispatch ⟨7, "t", Option.some (.v1 "CREATE TABLE t (a int8)" Option.none)⟩
        = .ok (Option.some (7, "t", encodeItem (.v1 newSql Option.none))) ∧
      decodeItem (encodeItem (.v1 newSql Option.none)) = .ok (.v1 newSql Option.none) :=
  envelope_frame (fun _ => .ok (.createTable ⟨["t"]⟩ [⟨"a", .other ⟨["int8"]⟩ []⟩]))
    typeDispatch ⟨7, "t", Option.some (.v1 "CREATE TABLE t (a int8)" Option.none)⟩
    "CREATE TABLE t (a int8)" Option.none
    (.createTable ⟨["t"]⟩ [⟨"a", .other ⟨["int8"]⟩ []⟩])
    (.createTable ⟨["t"]⟩ [⟨"a", .other ⟨["pg_catalog", "int8"]⟩ []⟩])
    rfl rfl rfl

/-- C9: Re-encoding totality. Re-encoding the envelope is a total function
that always round-trips (it never fails on any tree a Migration Step
produces), and once an item's statement has been dispatched successfully the
per-item processing cannot return an error: no recoverable error path exists
after the rewrite. -/
theorem reencode_totality (parse : String → Except String Statement)
    (dispatch : Statement → Except String (Option Statement))
    (item : CatalogItem) (sql : String) (env : Option String)
    (stmt : Statement) (r : Option Statement)
    (hdec : decodeItem item.definition = .ok (.v1 sql env))
    (hparse : parse sql = .ok stmt)
    (hd : dispatch stmt = .ok r) :
    (∀ s, decodeItem (encodeItem s) = .ok s) ∧
    stepOk (migrateItem parse dispatch item) = true := by
  refine ⟨fun s => rfl, ?_⟩
  cases r with
  | none =>
      rw [migrateItem_skip parse dispatch item sql env stmt hdec hparse hd]
      rfl
  | some stmt2 =>
      rw [migrateItem_staged parse dispatch item sql env stmt stmt2 hdec hparse hd]
      rfl

/-- Witness for C9 on a concrete rewritten item. -/
theorem reencode_totality_witness :
    (∀ s, decodeItem (encodeItem s) = .ok s) ∧
    stepOk (migrateItem
        (fun _ => .ok (.createTable ⟨["t"]⟩ [⟨"a", .other ⟨["int8"]⟩ []⟩]))
        typeDispatch
        ⟨7, "t", Option.some (.v1 "CREATE TABLE t (a int8)" Option.none)⟩) = true :=
  reencode_totality
    (fun _ => .ok (.createTable ⟨["t"]⟩ [⟨"a", .other ⟨["int8"]⟩ []⟩]))
    typeDispatch ⟨7, "t", Option.some (.v1 "CREATE TABLE t (a int8)" Option.none)⟩
    "CREATE TABLE t (a int8)" Option.none
    (.createTable ⟨["t"]⟩ [⟨"a", .other ⟨["int8"]⟩ []⟩])
    (Option.some (.createTable ⟨["t"]⟩ [⟨"a", .other ⟨["pg_catalog", "int8"]⟩ []⟩]))
    rfl rfl rfl

/-- An item whose statement the dispatch skips keeps its stored definition:
no committed update carries its id. -/
theorem finalDefinition_of_skip (parse : String → Except String Statement)
    (dispatch : Statement → Except String (Option Statement))
    (items : List CatalogItem) (item : CatalogItem) (sql : String)
    (env : Option String) (stmt : Statement)
    (hmem : item ∈ items)
    (hunique : ∀ i ∈ items, i.id = item.id → i = item)
    (hdec : decodeItem item.definition = .ok (.v1 sql env))
    (hparse : parse sql = .ok stmt)
    (hd : dispatch stmt = .ok Option.none) :
    finalDefinition (runStep parse dispatch items) item = item.definition := by
  unfold finalDefinition runStep
  cases hs : stageItems parse dispatch items with
  | error e => simp [committedUpdates]
  | ok us =>
      have hfind : us.find? (fun u => u.1 == item.id) = Option.none := by
        rw [List.find?_eq_none]
        intro u hu hbeq
        obtain ⟨i, hi, hmig⟩ := stageItems_updates_sourced parse dispatch items us hs u hu
        have hid := migrateItem_id parse dispatch i u hmig
        have hidq : u.1 = item.id := by simpa using hbeq
        have hieq : i = item := hunique i hi (by rw [← hid]; exact hidq)
        subst hieq
        have hskip := migrateItem_skip parse dispatch i sql env stmt hdec hparse hd
        rw [hmig] at hskip
        simp at hskip
      simp [committedUpdates, hfind]

/-- C6: Scope (no-op) law. For an item whose statement kind a policy marks
as skip — sources and sinks for the Type Qualifier; tables, sinks, sources
and types for the Function Qualifier — that policy's Migration Step leaves
the item's stored serialized definition byte-identical to the input. -/
theorem scope_noop_law (parse : String → Except String Statement)
    (bt : BuiltinTables) (items : List CatalogItem) (item : CatalogItem)
    (sql : String) (env : Option String) (stmt : Statement)
    (hmem : item ∈ items)
    (hunique : ∀ i ∈ items, i.id = item.id → i = item)
    (hdec : decodeItem item.definition = .ok (.v1 sql env))
    (hparse : parse sql = .ok stmt) :
    (isTypeSkipKind stmt = true →
      finalDefinition (runStep parse typeDispatch items) item = item.definition) ∧
    (isFuncSkipKind stmt = true →
      finalDefinition (runStep parse (funcDispatch bt) items) item = item.definition) := by
  constructor
  · intro hskip
    exact finalDefinition_of_skip parse typeDispatch items item sql env stmt
      hmem hunique hdec hparse (typeDispatch_skip stmt hskip)
  · intro hskip
    exact finalDefinition_of_skip parse (funcDispatch bt) items item sql env stmt
      hmem hunique hdec hparse (funcDispatch_skip bt stmt hskip)

/-- Witness for C6: in a batch holding a source item and a table item, both
policies' steps leave the source item's stored bytes unchanged. -/
theorem scope_noop_law_witness :
    (finalDefinition
        (runStep
          (fun sql => if sql = "src" then .ok (.createSource ⟨["s"]⟩ "x")
            else .ok (.createTable ⟨["t"]⟩ [⟨"a", .other ⟨["int8"]⟩ []⟩]))
          typeDispatch
          [⟨1, "s", Option.some (.v1 "src" Option.none)⟩,
           ⟨2, "t", Option.some (.v1 "tbl" Option.none)⟩])
        ⟨1, "s", Option.some (.v1 "src" Option.none)⟩
      = Option.some (.v1 "src" Option.none)) ∧
    (finalDefinition
        (runStep
          (fun sql => if sql = "src" then .ok (.createSource ⟨["s"]⟩ "x")
            else .ok (.createTable ⟨["t"]⟩ [⟨"a", .other ⟨["int8"]⟩ []⟩]))
          (funcDispatch ⟨["f"], [], []⟩)
          [⟨1, "s", Option.some (.v1 "src" Option.none)⟩,
           ⟨2, "t", Option.some (.v1 "tbl" Option.none)⟩])
        ⟨1, "s", Option.some (.v1 "src" Option.none)⟩
      = Option.some (.v1 "src" Option.none)) := by
  constructor
  · exact (scope_noop_law
      (fun sql => if sql = "src" then .ok (.createSource ⟨["s"]⟩ "x")
        else .ok (.createTable ⟨["t"]⟩ [⟨"a", .other ⟨["int8"]⟩ []⟩]))
      ⟨["f"], [], []⟩
      [⟨1, "s", Option.some (.v1 "src" Option.none)⟩,
       ⟨2, "t", Option.some (.v1 "tbl" Option.none)⟩]
      ⟨1, "s", Option.some (.v1 "src" Option.none)⟩
      "src" Option.none (.createSource ⟨["s"]⟩ "x")
      (List.mem_cons_self _ _) (by decide) rfl rfl).1 rfl
  · exact (scope_noop_law
      (fun sql => if sql = "src" then .ok (.createSource ⟨["s"]⟩ "x")
        else .ok (.createTable ⟨["t"]⟩ [⟨"a", .other ⟨["int8"]⟩ []⟩]))
      ⟨["f"], [], []⟩
      [⟨1, "s", Option.some (.v1 "src" Option.none)⟩,
       ⟨2, "t", Option.some (.v1 "tbl" Option.none)⟩]
      ⟨1, "s", Option.some (.v1 "src" Option.none)⟩
      "src" Option.none (.createSource ⟨["s"]⟩ "x")
      (List.mem_cons_self _ _) (by decide) rfl rfl).2 rfl

/-- C8: Function Qualifier dispatch scope. On a `CREATE VIEW` the policy
rewrites the whole query body, where its visitor qualifies both function-call
expressions and table-factor function references; on a `CREATE INDEX` it
rewrites only the key expressions and passes `with_options` through
untouched, so a reference inside an index option is left unchanged by this
policy. -/
theorem funcQualifier_dispatch_scope (bt : BuiltinTables) (n : Ident)
    (onN vn : UnresolvedObjectName) (kp : Option ExprList) (wo : List SqlOption)
    (q : Query) :
    funcDispatch bt (.createIndex n onN kp wo)
      = .ok (Option.some (.createIndex n onN (kp.map (funcRewriteExprList bt)) wo)) ∧
    funcDispatch bt (.createView vn q)
      = .ok (Option.some (.createView vn (funcRewriteQuery bt q))) ∧
    (∀ fn args, funcRewriteExpr bt (.call (.mk fn args))
      = .call (.mk (normalize_function_name bt fn) (funcRewriteExprList bt args))) ∧
    (∀ fn args, funcRewriteTableFactor bt (.func fn args)
      = .func (normalize_function_name bt fn) (funcRewriteExprList bt args)) :=
  ⟨rfl, rfl, fun _ _ => rfl, fun _ _ => rfl⟩

/-- No update of the item loop carries an id absent from the batch. -/
theorem stageItems_filter_of_absent (parse : String → Except String Statement)
    (dispatch : Statement → Except String (Option Statement))
    (rest : List CatalogItem) (us : List Update) (n : Nat)
    (h : stageItems parse dispatch rest = .ok us)
    (hn : ∀ i ∈ rest, i.id ≠ n) :
    us.filter (fun u => u.1 == n) = [] := by
  rw [List.filter_eq_nil_iff]
  intro u hu hbeq
  obtain ⟨i, hi, hmig⟩ := stageItems_updates_sourced parse dispatch rest us h u hu
  have hid := migrateItem_id parse dispatch i u hmig
  exact hn i hi (by rw [← hid]; exact (by simpa using hbeq))

/-- C10: Staging applies to every handled item. When a Migration Step
commits, the committed updates carry exactly one update for each handled
(non-skipped) item, and that update replaces the item's `create_sql` with
the stable re-rendering of the dispatched tree — also when the policy
changed no name in the tree. -/
theorem staging_every_handled_item (parse : String → Except String Statement)
    (dispatch : Statement → Except String (Option Statement))
    (items : List CatalogItem) (us : List Update) (item : CatalogItem)
    (sql : String) (env : Option String) (stmt stmt2 : Statement)
    (hmem : item ∈ items)
    (hnodup : (items.map CatalogItem.id).Nodup)
    (hdec : decodeItem item.definition = .ok (.v1 sql env))
    (hparse : parse sql = .ok stmt)
    (hd : dispatch stmt = .ok (Option.some stmt2))
    (hrun : runStep parse dispatch items = .ok us) :
    us.filter (fun u => u.1 == item.id)
      = [(item.id, item.name,
          encodeItem (SerializedCatalogItem.v1 (renderStatement stmt2) env))] := by
  unfold runStep at hrun
  induction items generalizing us with
  | nil => cases hmem
  | cons i rest ih =>
      rcases List.mem_cons.mp hmem with heq | hmem2
      · subst heq
        have hmig := migrateItem_staged parse dispatch item sql env stmt stmt2
          hdec hparse hd
        simp only [stageItems, hmig] at hrun
        cases hs : stageItems parse dispatch rest with
        | error e => rw [hs] at hrun; simp at hrun
        | ok us2 =>
            rw [hs] at hrun
            simp only [Except.ok.injEq] at hrun
            subst hrun
            have hn : ∀ j ∈ rest, j.id ≠ item.id := by
              simp only [List.map_cons, List.nodup_cons] at hnodup
              intro j hj hjid
              exact hnodup.1 (hjid ▸ List.mem_map_of_mem CatalogItem.id hj)
            rw [List.filter_cons]
            simp [stageItems_filter_of_absent parse dispatch rest us2 item.id hs hn]
      · simp only [List.map_cons, List.nodup_cons] at hnodup
        have hine : i.id ≠ item.id := by
          intro hq
          exact hnodup.1 (hq ▸ List.mem_map_of_mem CatalogItem.id hmem2)
        cases hmi : migrateItem parse dispatch i with
        | error e => simp [stageItems, hmi] at hrun
        | ok o =>
          cases o with
          | none =>
              simp only [stageItems, hmi] at hrun
              exact ih us hmem2 hnodup.2 hrun
          | some u0 =>
              simp only [stageItems, hmi] at hrun
              cases hs : stageItems parse dispatch rest with
              | error e => rw [hs] at hrun; simp at hrun
              | ok us2 =>
                  rw [hs] at hrun
                  simp only [Except.ok.injEq] at hrun
                  subst hrun
                  have hu0 : u0.1 ≠ item.id := by
                    rw [migrateItem_id parse dispatch i u0 hmi]
                    exact hine
                  rw [List.filter_cons, if_neg (by simpa using hu0)]
                  exact ih us2 hmem2 hnodup.2 hs

/-- Witness for C10: a single view item whose query the Type Qualifier does
not change is still staged, with its text replaced by the stable
rendering. -/
theorem staging_every_handled_item_witness :
    List.filter (fun u => u.1 == 3)
        [(3, "v", encodeItem (SerializedCatalogItem.v1
          (renderStatement (.createView ⟨["v"]⟩
            (.select (.cons (.lit "1") .nil) .nil .none))) Option.none))]
      = [(3, "v", encodeItem (SerializedCatalogItem.v1
          (renderStatement (.createView ⟨["v"]⟩
            (.select (.cons (.lit "1") .nil) .nil .none))) Option.none))] :=
  staging_every_handled_item
    (fun _ => .ok (.createView ⟨["v"]⟩ (.select (.cons (.lit "1") .nil) .nil .none)))
    typeDispatch
    [⟨3, "v", Option.some (.v1 "CREATE VIEW v AS SELECT 1" Option.none)⟩]
    [(3, "v", encodeItem (SerializedCatalogItem.v1
      (renderStatement (.createView ⟨["v"]⟩
        (.select (.cons (.lit "1") .nil) .nil .none))) Option.none))]
    ⟨3, "v", Option.some (.v1 "CREATE VIEW v AS SELECT 1" Option.none)⟩
    "CREATE VIEW v AS SELECT 1" Option.none
    (.createView ⟨["v"]⟩ (.select (.cons (.lit "1") .nil) .nil .none))
    (.createView ⟨["v"]⟩ (.select (.cons (.lit "1") .nil) .nil .none))
    (List.mem_cons_self _ _) (by decide) rfl rfl rfl rfl

end Migrate
